import Mathlib

/-!
# Verification of the Wildberries orders fetcher (`src/main.py`)

Shallow embedding of the program in `main.py`:

* `classify` embeds the response-classification cascade of `fetch_orders`
  (status checks at lines 132-151, body checks at lines 153-179).
* `fetchStep` embeds one iteration of the inner retry loop of
  `fetch_orders` (lines 119-200), including the sleeps it performs and the
  cursor/accumulator updates.
* `fetchGo` / `fetch_orders` drive `fetchStep` over a finite list of raw
  responses, one response per issued request, producing the record
  accumulator, an event trace (requests and sleeps) and a stop reason.
* `write_orders_to_sheet` embeds the sink function (lines 207-231) over an
  association-list model of the destination spreadsheet, with a failure
  oracle standing for exceptions escaping the retry wrappers.
* `mainRun` embeds the per-cabinet loop of `main` (lines 236-248).

Machine behaviour that the claims do not touch (real wall-clock time for the
initial `date_from`, the jittered Google-API retry backoff, actual HTTP) is
abstracted: the initial cursor and the response stream are parameters.
-/

namespace Orders

/-- One order record: Python dict from field name to a scalar value,
keys in insertion order (as returned by the API). -/
abbrev Record := List (String × String)

/-- Python `d[k]` / `d.get(k)` for a record: first binding of `k`. -/
def dictGet (k : String) (r : Record) : Option String :=
  (r.find? (fun p => p.1 == k)).map (fun p => p.2)

/-- Python `list(d.keys())`: field names in insertion order. -/
def recKeys (r : Record) : List String :=
  r.map (fun p => p.1)

/-- Result of `resp.json()` when it succeeds: either a JSON array of
records or some non-array JSON value (`isinstance(chunk, list)` fails). -/
inductive Json where
  | arr (records : List Record)
  | nonArray
  deriving DecidableEq, Repr

/-- Abstraction of one HTTP response as far as `fetch_orders` inspects it:
the status code, whether `"application/json"` occurs in the lowered
Content-Type header, whether `resp.text` is empty/whitespace, and the
result of JSON-parsing the body (`none` = `JSONDecodeError`). -/
structure HttpResponse where
  status : Nat
  ctypeJson : Bool
  bodyBlank : Bool
  parsed : Option Json
  deriving DecidableEq, Repr

/-- What one `requests.get` call in the inner loop produces: a network-level
exception (the `except` branch at line 124) or an HTTP response. -/
inductive RawResponse where
  | netErr
  | ok (resp : HttpResponse)
  deriving DecidableEq, Repr

/-- The transient HTTP statuses of line 132: `(429, 500, 502, 503, 504)`. -/
def transientStatuses : List Nat := [429, 500, 502, 503, 504]

/-- Classification of an HTTP response, mirroring the cascade of checks in
`fetch_orders` in source order (lines 132-182). -/
inductive Classified where
  | transientHttp
  | fatalAuth
  | unexpectedStatus
  | malformed
  | validPage (records : List Record)
  deriving DecidableEq, Repr

/-- The classification cascade of `fetch_orders`, in source order:
transient statuses (line 132), 401 (line 141), other non-200 (line 145),
content-type / blank body (line 155), JSON decode (line 163),
non-array JSON (line 173), and finally a valid page. -/
def classify (resp : HttpResponse) : Classified :=
  if transientStatuses.contains resp.status then .transientHttp
  else if resp.status == 401 then .fatalAuth
  else if resp.status != 200 then .unexpectedStatus
  else if !resp.ctypeJson || resp.bodyBlank then .malformed
  else
    match resp.parsed with
    | none => .malformed
    | some .nonArray => .malformed
    | some (.arr chunk) => .validPage chunk

/-- Constant `max_decode_retries = 3` (line 113). -/
def maxDecodeRetries : Nat := 3

/-- Constant `base_sleep = 60` (line 114). -/
def baseSleep : Nat := 60

/-- Constant `max_http_retries = 3` (line 115). -/
def maxHttpRetries : Nat := 3

/-- Observable events of a fetch: issued requests (with the `dateFrom`
cursor, page number and 1-indexed attempt) and sleeps (seconds). -/
inductive Event where
  | request (dateFrom : String) (page : Nat) (attempt : Nat)
  | sleep (seconds : Nat)
  deriving DecidableEq, Repr

/-- Why `fetch_orders` stopped. -/
inductive StopReason where
  | netRetriesExhausted
  | httpRetriesExhausted
  | unexpectedRetriesExhausted
  | decodeRetriesExhausted
  | fatalAuth
  | emptyPage
  | missingCursor
  | responsesExhausted
  deriving DecidableEq, Repr

/-- Mutable state of `fetch_orders`: `all_rows`, `next_date_from`, `page`,
and the per-page `attempt` counter. -/
structure FetchState where
  allRows : List Record
  cursor : String
  page : Nat
  attempt : Nat
  deriving DecidableEq, Repr

/-- Outcome of one inner-loop iteration: retry the same page, advance to the
next page, or return from `fetch_orders`. -/
inductive StepOut where
  | retry (s : FetchState) (evs : List Event)
  | nextPage (s : FetchState) (evs : List Event)
  | stop (rows : List Record) (reason : StopReason) (evs : List Event)
  deriving DecidableEq, Repr

/-- Python `chunk[-1]["lastChangeDate"]` as an Option. -/
def lastCursor (chunk : List Record) : Option String :=
  chunk.getLast?.bind (dictGet "lastChangeDate")

/-- One iteration of the inner `while True` loop of `fetch_orders`
(lines 119-200), applied to the raw outcome of the request it issues.
`attempt` is incremented at the top (line 120); each failure branch sleeps
first and then compares the shared `attempt` counter to its cap, returning
`all_rows` when the cap is reached; a 401 returns immediately with no
sleep; a valid non-empty page extends the accumulator, moves the cursor to
the last record's `lastChangeDate` (stopping if it is absent) and sleeps
the rate-limit pause. -/
def fetchStep (r : RawResponse) (s : FetchState) : StepOut :=
  let attempt := s.attempt + 1
  let s1 : FetchState := { s with attempt := attempt }
  match r with
  | .netErr =>
      if maxHttpRetries ≤ attempt then
        .stop s.allRows .netRetriesExhausted [.sleep baseSleep]
      else .retry s1 [.sleep baseSleep]
  | .ok resp =>
      match classify resp with
      | .transientHttp =>
          let w := baseSleep * min attempt 4
          if maxHttpRetries ≤ attempt then
            .stop s.allRows .httpRetriesExhausted [.sleep w]
          else .retry s1 [.sleep w]
      | .fatalAuth => .stop s.allRows .fatalAuth []
      | .unexpectedStatus =>
          if maxHttpRetries ≤ attempt then
            .stop s.allRows .unexpectedRetriesExhausted [.sleep baseSleep]
          else .retry s1 [.sleep baseSleep]
      | .malformed =>
          if maxDecodeRetries ≤ attempt then
            .stop s.allRows .decodeRetriesExhausted [.sleep baseSleep]
          else .retry s1 [.sleep baseSleep]
      | .validPage chunk =>
          match chunk.getLast? with
          | none => .stop s.allRows .emptyPage []
          | some lastRec =>
              let rows := s.allRows ++ chunk
              match dictGet "lastChangeDate" lastRec with
              | none => .stop rows .missingCursor []
              | some c =>
                  .nextPage
                    { allRows := rows, cursor := c, page := s.page + 1, attempt := 0 }
                    [.sleep baseSleep]

/-- Result of a fetch: the full event trace, the returned `all_rows`, why
the loop stopped, and how many responses were consumed (one per request). -/
structure FetchResult where
  events : List Event
  rows : List Record
  reason : StopReason
  consumed : Nat
  deriving DecidableEq, Repr

/-- The nested loops of `fetch_orders`, driven by a finite list of raw
responses — request `n` receives the `n`-th element. Exhausting the list
models the end of the observed behaviour (`responsesExhausted`). -/
def fetchGo : List RawResponse → FetchState → FetchResult
  | [], s => ⟨[], s.allRows, .responsesExhausted, 0⟩
  | r :: rest, s =>
      let req := Event.request s.cursor s.page (s.attempt + 1)
      match fetchStep r s with
      | .retry s1 evs =>
          let res := fetchGo rest s1
          ⟨req :: (evs ++ res.events), res.rows, res.reason, res.consumed + 1⟩
      | .nextPage s1 evs =>
          let res := fetchGo rest s1
          ⟨req :: (evs ++ res.events), res.rows, res.reason, res.consumed + 1⟩
      | .stop rows reason evs => ⟨req :: evs, rows, reason, 1⟩

/-- Function `fetch_orders` (lines 96-202): starts with `all_rows = []`, the cursor
at the configured `date_from` (computed from the clock in Python, a
parameter here), `page = 1`, `attempt = 0`. -/
def fetch_orders (dateFrom : String) (responses : List RawResponse) : FetchResult :=
  fetchGo responses ⟨[], dateFrom, 1, 0⟩

/-- Cursors of the request events of a trace, in order. -/
def requestCursors (evs : List Event) : List String :=
  evs.filterMap (fun e =>
    match e with
    | .request c _ _ => some c
    | .sleep _ => none)

/-- Number of request events in a trace. -/
def requestCount (evs : List Event) : Nat :=
  (requestCursors evs).length

/-- Whether a trace contains any sleep event. -/
def hasSleep (evs : List Event) : Bool :=
  evs.any (fun e =>
    match e with
    | .request _ _ _ => false
    | .sleep _ => true)

/-! ## The destination spreadsheet and the sink (`write_orders_to_sheet`) -/

/-- Contents of one worksheet: rows of cells. -/
abbrev Table := List (List String)

/-- The destination spreadsheet: worksheets by title, in creation order. -/
abbrev Book := List (String × Table)

/-- Look a worksheet up by title. -/
def bookGet (b : Book) (name : String) : Option Table :=
  (b.find? (fun p => p.1 == name)).map (fun p => p.2)

/-- Replace the contents of an existing worksheet. -/
def bookSet (b : Book) (name : String) (t : Table) : Book :=
  b.map (fun p => if p.1 == name then (p.1, t) else p)

/-- Function `get_worksheet_safe` (lines 72-76): return the worksheet with this
title, creating an empty one if it is absent. -/
def ensureTable (b : Book) (name : String) : Book :=
  match bookGet b name with
  | some _ => b
  | none => b ++ [(name, [])]

/-- The sink operations of `write_orders_to_sheet` that can raise after
their retry wrapper gives up. -/
inductive SinkOp where
  | getWs
  | clearWs
  | updateWs
  deriving DecidableEq, Repr

/-- Failure oracle: whether the given sink operation for the given cabinet
raises (after `retry_call` gives up or hits a non-retryable error). -/
abbrev FailOracle := String → SinkOp → Bool

/-- The oracle under which every sink operation succeeds. -/
def noFail : FailOracle := fun _ _ => false

/-- Python `[order.get(h, "") for h in headers]` (line 222). -/
def rowFor (headers : List String) (o : Record) : List String :=
  headers.map (fun h => (dictGet h o).getD "")

/-- The `rows` list built at lines 217-223: the first record's keys as the
header row, then one row per record (the first record included). -/
def sheetRows (orders : List Record) : Table :=
  match orders with
  | [] => []
  | o :: _ => recKeys o :: orders.map (rowFor (recKeys o))

/-- The body of `write_orders_to_sheet` (lines 208-227) before its
`except`: get-or-create the worksheet; if `orders` is empty return without
touching it; otherwise build all rows, clear, then update. Returns the
book at the point control leaves the body and whether an exception escaped
(to be caught at line 230). -/
def writeOrdersBody (fail : FailOracle) (book : Book) (cab : String)
    (orders : List Record) : Book × Bool :=
  if fail cab .getWs then (book, true)
  else
    let b1 := ensureTable book cab
    if orders.isEmpty then (b1, false)
    else
      let rows := sheetRows orders
      if fail cab .clearWs then (b1, true)
      else
        let b2 := bookSet b1 cab []
        if fail cab .updateWs then (b2, true)
        else (bookSet b2 cab rows, false)

/-- Function `write_orders_to_sheet` (lines 207-231): the body with every exception
caught and logged, so it always returns. -/
def write_orders_to_sheet (fail : FailOracle) (book : Book) (cab : String)
    (orders : List Record) : Book :=
  (writeOrdersBody fail book cab orders).1

/-! ## The per-cabinet runner (`main`) -/

/-- One row of the source sheet that survives filtering (line 91). -/
structure Credential where
  token : String
  cabinet : String
  deriving DecidableEq, Repr

/-- One iteration of the loop in `main` (lines 239-248): fetch this
cabinet's orders, hand them to the sink. Returns the updated book and the
sink invocation made (cabinet name, records passed). -/
def processCred (fail : FailOracle) (respFor : String → List RawResponse)
    (dateFrom : String) (book : Book) (c : Credential) :
    Book × (String × List Record) :=
  let orders := (fetch_orders dateFrom (respFor c.token)).rows
  (write_orders_to_sheet fail book c.cabinet orders, (c.cabinet, orders))

/-- The loop of `main` over all credentials, threading the destination book
and collecting the sink invocations in order. -/
def mainRun (fail : FailOracle) (respFor : String → List RawResponse)
    (dateFrom : String) : List Credential → Book → Book × List (String × List Record)
  | [], book => (book, [])
  | c :: rest, book =>
      let step := processCred fail respFor dateFrom book c
      let further := mainRun fail respFor dateFrom rest step.1
      (further.1, step.2 :: further.2)

/-- Events emitted by one inner-loop iteration. -/
def stepEvents : StepOut → List Event
  | .retry _ evs => evs
  | .nextPage _ evs => evs
  | .stop _ _ evs => evs

/-! ## Helper lemmas about one inner-loop iteration -/

theorem fetchStep_retry_eq {r : RawResponse} {s s1 : FetchState} {evs : List Event}
    (h : fetchStep r s = .retry s1 evs) :
    s1.cursor = s.cursor ∧ s1.page = s.page ∧ s1.allRows = s.allRows ∧
      s1.attempt = s.attempt + 1 ∧ s.attempt + 1 < 3 := by
  unfold fetchStep at h
  cases r with
  | netErr =>
    simp only [maxHttpRetries] at h
    split at h
    · exact absurd h (by simp)
    · cases h; exact ⟨rfl, rfl, rfl, rfl, by omega⟩
  | ok resp =>
    simp only [maxHttpRetries, maxDecodeRetries] at h
    split at h <;> (try split at h) <;> (try split at h) <;> cases h <;>
      exact ⟨rfl, rfl, rfl, rfl, by omega⟩

theorem fetchStep_nextPage_eq {r : RawResponse} {s s1 : FetchState} {evs : List Event}
    (h : fetchStep r s = .nextPage s1 evs) :
    ∃ resp chunk, r = .ok resp ∧ classify resp = .validPage chunk ∧ chunk ≠ [] ∧
      lastCursor chunk = some s1.cursor ∧ s1.allRows = s.allRows ++ chunk ∧
      s1.page = s.page + 1 ∧ s1.attempt = 0 ∧ evs = [.sleep baseSleep] := by
  unfold fetchStep at h
  cases r with
  | netErr =>
    simp only [maxHttpRetries] at h
    split at h <;> exact absurd h (by simp)
  | ok resp =>
    simp only [maxHttpRetries, maxDecodeRetries] at h
    split at h
    · split at h <;> exact absurd h (by simp)
    · exact absurd h (by simp)
    · split at h <;> exact absurd h (by simp)
    · split at h <;> exact absurd h (by simp)
    · next chunk hc =>
      split at h
      · exact absurd h (by simp)
      · next lastRec hl =>
        split at h
        · exact absurd h (by simp)
        · next c hd =>
          cases h
          refine ⟨resp, chunk, rfl, hc, ?_, ?_, rfl, rfl, rfl, rfl⟩
          · intro hnil
            rw [hnil] at hl
            simp at hl
          · simpa [lastCursor, hl] using hd

theorem fetchStep_stop_reason {r : RawResponse} {s : FetchState} {rows : List Record}
    {reason : StopReason} {evs : List Event}
    (h : fetchStep r s = .stop rows reason evs) :
    reason ≠ .responsesExhausted := by
  unfold fetchStep at h
  cases r with
  | netErr =>
    simp only [maxHttpRetries] at h
    split at h <;> cases h <;> try simp
  | ok resp =>
    simp only [maxHttpRetries, maxDecodeRetries] at h
    split at h <;> (try split at h) <;> (try split at h) <;> cases h <;> try simp

theorem fetchStep_no_request (r : RawResponse) (s : FetchState) :
    requestCursors (stepEvents (fetchStep r s)) = [] := by
  unfold fetchStep
  cases r with
  | netErr =>
    simp only [maxHttpRetries]
    split <;> simp [stepEvents, requestCursors]
  | ok resp =>
    simp only [maxHttpRetries, maxDecodeRetries]
    split <;> (try split) <;> (try split) <;> simp [stepEvents, requestCursors]

theorem fetchStep_events_sleep {d : String} {p a : Nat} (r : RawResponse) (s : FetchState) :
    Event.request d p a ∉ stepEvents (fetchStep r s) := by
  unfold fetchStep
  cases r with
  | netErr =>
    simp only [maxHttpRetries]
    split <;> simp [stepEvents]
  | ok resp =>
    simp only [maxHttpRetries, maxDecodeRetries]
    split <;> (try split) <;> (try split) <;> simp [stepEvents]

/-! ## Helper lemmas about the pagination loop -/

theorem fetchGo_consumed_le (rs : List RawResponse) (s : FetchState) :
    (fetchGo rs s).consumed ≤ rs.length := by
  induction rs generalizing s with
  | nil => simp [fetchGo]
  | cons r rest ih =>
    rcases hstep : fetchStep r s with ⟨s1, evs⟩ | ⟨s1, evs⟩ | ⟨rows, reason, evs⟩ <;>
      simp only [fetchGo, hstep, List.length_cons]
    · exact Nat.succ_le_succ (ih s1)
    · exact Nat.succ_le_succ (ih s1)
    · exact Nat.succ_le_succ (Nat.zero_le _)

theorem requestCursors_go_retry {r : RawResponse} {rest : List RawResponse}
    {s s1 : FetchState} {evs : List Event} (hstep : fetchStep r s = .retry s1 evs) :
    requestCursors (fetchGo (r :: rest) s).events
      = s.cursor :: requestCursors (fetchGo rest s1).events := by
  have hzero := fetchStep_no_request r s
  rw [hstep] at hzero
  simp only [stepEvents] at hzero
  simp only [fetchGo, hstep]
  simp only [requestCursors, List.filterMap_cons, List.filterMap_append] at hzero ⊢
  rw [hzero]
  rfl

theorem requestCursors_go_nextPage {r : RawResponse} {rest : List RawResponse}
    {s s1 : FetchState} {evs : List Event} (hstep : fetchStep r s = .nextPage s1 evs) :
    requestCursors (fetchGo (r :: rest) s).events
      = s.cursor :: requestCursors (fetchGo rest s1).events := by
  have hzero := fetchStep_no_request r s
  rw [hstep] at hzero
  simp only [stepEvents] at hzero
  simp only [fetchGo, hstep]
  simp only [requestCursors, List.filterMap_cons, List.filterMap_append] at hzero ⊢
  rw [hzero]
  rfl

theorem requestCursors_go_stop {r : RawResponse} {rest : List RawResponse}
    {s : FetchState} {rows : List Record} {reason : StopReason} {evs : List Event}
    (hstep : fetchStep r s = .stop rows reason evs) :
    requestCursors (fetchGo (r :: rest) s).events = [s.cursor] := by
  have hzero := fetchStep_no_request r s
  rw [hstep] at hzero
  simp only [stepEvents] at hzero
  simp only [fetchGo, hstep]
  simp only [requestCursors, List.filterMap_cons] at hzero ⊢
  rw [hzero]

theorem fetchGo_requestCount (rs : List RawResponse) (s : FetchState) :
    requestCount (fetchGo rs s).events = (fetchGo rs s).consumed := by
  induction rs generalizing s with
  | nil => simp [fetchGo, requestCount, requestCursors]
  | cons r rest ih =>
    rcases hstep : fetchStep r s with ⟨s1, evs⟩ | ⟨s1, evs⟩ | ⟨rows, reason, evs⟩
    · rw [requestCount, requestCursors_go_retry hstep]
      simp only [fetchGo, hstep, List.length_cons]
      exact congrArg Nat.succ (ih s1)
    · rw [requestCount, requestCursors_go_nextPage hstep]
      simp only [fetchGo, hstep, List.length_cons]
      exact congrArg Nat.succ (ih s1)
    · rw [requestCount, requestCursors_go_stop hstep]
      simp only [fetchGo, hstep, List.length_cons, List.length_nil]

theorem fetchGo_early_stop (rs : List RawResponse) (s : FetchState)
    (hlt : (fetchGo rs s).consumed < rs.length) :
    (fetchGo rs s).reason ≠ .responsesExhausted := by
  induction rs generalizing s with
  | nil => simp [fetchGo] at hlt
  | cons r rest ih =>
    rcases hstep : fetchStep r s with ⟨s1, evs⟩ | ⟨s1, evs⟩ | ⟨rows, reason, evs⟩ <;>
      simp only [fetchGo, hstep, List.length_cons] at hlt ⊢
    · exact ih s1 (by omega)
    · exact ih s1 (by omega)
    · exact fetchStep_stop_reason hstep

theorem fetchGo_attempt_le (rs : List RawResponse) (s : FetchState) (hs : s.attempt ≤ 2)
    {d : String} {p a : Nat} (he : Event.request d p a ∈ (fetchGo rs s).events) : a ≤ 3 := by
  induction rs generalizing s with
  | nil => simp [fetchGo] at he
  | cons r rest ih =>
    have hsleep := fetchStep_events_sleep (d := d) (p := p) (a := a) r s
    rcases hstep : fetchStep r s with ⟨s1, evs⟩ | ⟨s1, evs⟩ | ⟨rows, reason, evs⟩ <;>
      rw [hstep] at hsleep <;> simp only [stepEvents] at hsleep <;>
      simp only [fetchGo, hstep, List.mem_cons, List.mem_append] at he
    · rcases he with he | he | he
      · simp only [Event.request.injEq] at he
        omega
      · exact absurd he hsleep
      · have h1 := fetchStep_retry_eq hstep
        exact ih s1 (by omega) he
    · rcases he with he | he | he
      · simp only [Event.request.injEq] at he
        omega
      · exact absurd he hsleep
      · obtain ⟨resp, chunk, _, _, _, _, _, _, hatt, _⟩ := fetchStep_nextPage_eq hstep
        exact ih s1 (by omega) he
    · rcases he with he | he
      · simp only [Event.request.injEq] at he
        omega
      · exact absurd he hsleep

theorem fetchGo_page_cursor (rs : List RawResponse) (s : FetchState)
    {d : String} {p a : Nat} (he : Event.request d p a ∈ (fetchGo rs s).events) :
    s.page ≤ p ∧ (p = s.page → d = s.cursor) := by
  induction rs generalizing s with
  | nil => simp [fetchGo] at he
  | cons r rest ih =>
    have hsleep := fetchStep_events_sleep (d := d) (p := p) (a := a) r s
    rcases hstep : fetchStep r s with ⟨s1, evs⟩ | ⟨s1, evs⟩ | ⟨rows, reason, evs⟩ <;>
      rw [hstep] at hsleep <;> simp only [stepEvents] at hsleep <;>
      simp only [fetchGo, hstep, List.mem_cons, List.mem_append] at he
    · rcases he with he | he | he
      · simp only [Event.request.injEq] at he
        exact ⟨le_of_eq he.2.1.symm, fun _ => he.1⟩
      · exact absurd he hsleep
      · obtain ⟨hcur, hpage, _, _, _⟩ := fetchStep_retry_eq hstep
        have := ih s1 he
        rw [hpage, hcur] at this
        exact this
    · rcases he with he | he | he
      · simp only [Event.request.injEq] at he
        exact ⟨le_of_eq he.2.1.symm, fun _ => he.1⟩
      · exact absurd he hsleep
      · obtain ⟨resp, chunk, _, _, _, _, _, hpage, _, _⟩ := fetchStep_nextPage_eq hstep
        have := ih s1 he
        rw [hpage] at this
        exact ⟨by omega, fun hp => absurd this.1 (by omega)⟩
    · rcases he with he | he
      · simp only [Event.request.injEq] at he
        exact ⟨le_of_eq he.2.1.symm, fun _ => he.1⟩
      · exact absurd he hsleep

/-- A 200 response with JSON content type, a non-blank body, and a body
that parses as exactly this array of records. -/
def validPageResp (p : List Record) : RawResponse :=
  .ok ⟨200, true, false, some (.arr p)⟩

theorem fetchStep_validPageResp_nonempty {p : List Record} {c : String}
    (s : FetchState) (hc : lastCursor p = some c) :
    fetchStep (validPageResp p) s
      = .nextPage ⟨s.allRows ++ p, c, s.page + 1, 0⟩ [.sleep baseSleep] := by
  obtain ⟨lastRec, hl, hd⟩ := Option.bind_eq_some.mp hc
  have hcl : classify ⟨200, true, false, some (.arr p)⟩ = .validPage p := rfl
  simp only [validPageResp, fetchStep, hcl, hl, hd]

theorem fetchStep_validPageResp_empty (s : FetchState) :
    fetchStep (validPageResp []) s = .stop s.allRows .emptyPage [] := rfl

/-- Running the loop over a list of valid non-empty pages followed by the
empty terminal page: everything is accumulated in order, the loop stops
with `emptyPage` after exactly one request per page plus the final one, and
each page is requested at the cursor delivered by its predecessor. -/
theorem fetchGo_valid_pages (pages : List (List Record)) (s : FetchState)
    (h : ∀ p ∈ pages, (lastCursor p).isSome) :
    (fetchGo (pages.map validPageResp ++ [validPageResp []]) s).rows
        = s.allRows ++ pages.flatten ∧
    (fetchGo (pages.map validPageResp ++ [validPageResp []]) s).reason = .emptyPage ∧
    (fetchGo (pages.map validPageResp ++ [validPageResp []]) s).consumed
        = pages.length + 1 ∧
    requestCursors (fetchGo (pages.map validPageResp ++ [validPageResp []]) s).events
        = s.cursor :: pages.map (fun p => (lastCursor p).getD "") := by
  induction pages generalizing s with
  | nil =>
    have hstep := fetchStep_validPageResp_empty s
    refine ⟨?_, ?_, ?_, ?_⟩
    · simp [fetchGo, hstep]
    · simp [fetchGo, hstep]
    · simp [fetchGo, hstep]
    · rw [List.map_nil, List.nil_append, requestCursors_go_stop hstep]
      simp
  | cons p ps ih =>
    obtain ⟨c, hc⟩ := Option.isSome_iff_exists.mp (h p (List.mem_cons_self p ps))
    have hstep := fetchStep_validPageResp_nonempty s hc
    have hps : ∀ q ∈ ps, (lastCursor q).isSome :=
      fun q hq => h q (List.mem_cons_of_mem p hq)
    obtain ⟨ihrows, ihreason, ihcons, ihcur⟩ := ih ⟨s.allRows ++ p, c, s.page + 1, 0⟩ hps
    refine ⟨?_, ?_, ?_, ?_⟩
    · simp [fetchGo, hstep, ihrows, List.flatten_cons]
    · simp [fetchGo, hstep, ihreason]
    · simp [fetchGo, hstep, ihcons]
    · rw [List.map_cons, List.cons_append, requestCursors_go_nextPage hstep, ihcur]
      simp [hc]

/-! ## Helper lemmas about the spreadsheet model -/

theorem bookGet_ensureTable_of_get {b : Book} {name : String} {t : Table}
    (cab : String) (h : bookGet b name = some t) :
    bookGet (ensureTable b cab) name = some t := by
  unfold ensureTable
  cases hget : bookGet b cab with
  | some _ => exact h
  | none =>
    unfold bookGet at h ⊢
    rw [List.find?_append]
    cases hfind : List.find? (fun p => p.1 == name) b with
    | some pr => simp only [hfind, Option.map] at h ⊢; exact h
    | none => rw [hfind] at h; simp at h

theorem bookGet_ensureTable_self (b : Book) (cab : String) :
    (bookGet (ensureTable b cab) cab).isSome := by
  unfold ensureTable
  cases hget : bookGet b cab with
  | some _ => simp [hget]
  | none =>
    unfold bookGet at hget ⊢
    rw [List.find?_append]
    cases hfind : List.find? (fun p => p.1 == cab) b with
    | some pr => rw [hfind] at hget; simp at hget
    | none => simp [List.find?]

theorem bookGet_cons_of_ne {pr : String × Table} {rest : Book} {name : String}
    (hne : pr.1 ≠ name) :
    bookGet (pr :: rest) name = bookGet rest name := by
  unfold bookGet
  rw [List.find?_cons_of_neg _ (by simp [hne])]

theorem bookGet_bookSet_self {b : Book} {name : String} (t : Table)
    (h : (bookGet b name).isSome) :
    bookGet (bookSet b name t) name = some t := by
  induction b with
  | nil => simp [bookGet] at h
  | cons pr rest ih =>
    by_cases heq : pr.1 = name
    · simp [bookGet, bookSet, List.find?, heq]
    · have hset : bookSet (pr :: rest) name t = pr :: bookSet rest name t := by
        simp [bookSet, heq]
      rw [hset, bookGet_cons_of_ne heq]
      rw [bookGet_cons_of_ne heq] at h
      exact ih h

theorem write_empty_eq_ensure (book : Book) (cab : String) :
    write_orders_to_sheet noFail book cab [] = ensureTable book cab := by
  simp [write_orders_to_sheet, writeOrdersBody, noFail]

theorem write_nonempty_table (book : Book) (cab : String) (o : Record)
    (rest : List Record) :
    bookGet (write_orders_to_sheet noFail book cab (o :: rest)) cab
      = some (sheetRows (o :: rest)) := by
  have h1 := bookGet_ensureTable_self book cab
  have h2 := @bookGet_bookSet_self (ensureTable book cab) cab [] h1
  have h3 := @bookGet_bookSet_self (bookSet (ensureTable book cab) cab [])
    cab (sheetRows (o :: rest)) (by simp [h2])
  simpa [write_orders_to_sheet, writeOrdersBody, noFail] using h3

theorem dictGet_append_single_of_ne {k h : String} (r : Record) (v : String)
    (hne : k ≠ h) :
    dictGet h (r ++ [(k, v)]) = dictGet h r := by
  unfold dictGet
  rw [List.find?_append]
  cases hfind : List.find? (fun p => p.1 == h) r with
  | some pr => simp
  | none =>
    have hkh : (k == h) = false := by simp [hne]
    simp [List.find?, hkh]

/-! ## The claims -/

/-- C1: during a cabinet's fetch the pagination cursor never regresses:
a retried (failed) page request leaves the cursor identical, all requests
issued for one page carry the same cursor, and the cursor changes only when
a valid non-empty page is consumed, at which point it becomes the
`lastChangeDate` field of the last record of that page. -/
theorem C1_cursor_never_regresses (rs : List RawResponse) (r : RawResponse)
    (s : FetchState) :
    (∀ s1 evs, fetchStep r s = .retry s1 evs → s1.cursor = s.cursor) ∧
    (∀ s1 evs, fetchStep r s = .nextPage s1 evs →
      ∃ resp chunk, r = .ok resp ∧ classify resp = .validPage chunk ∧ chunk ≠ [] ∧
        lastCursor chunk = some s1.cursor) ∧
    (∀ d p a, Event.request d p a ∈ (fetchGo rs s).events →
      s.page ≤ p ∧ (p = s.page → d = s.cursor)) := by
  refine ⟨?_, ?_, ?_⟩
  · intro s1 evs h
    exact (fetchStep_retry_eq h).1
  · intro s1 evs h
    obtain ⟨resp, chunk, h1, h2, h3, h4, _⟩ := fetchStep_nextPage_eq h
    exact ⟨resp, chunk, h1, h2, h3, h4⟩
  · intro d p a he
    exact fetchGo_page_cursor rs s he

theorem C1_witness :
    (FetchState.mk [] "A" 1 1).cursor = (FetchState.mk [] "A" 1 0).cursor ∧
    (∃ resp chunk, validPageResp [[("lastChangeDate", "B")]] = RawResponse.ok resp ∧
      classify resp = Classified.validPage chunk ∧ chunk ≠ [] ∧
      lastCursor chunk
        = some (FetchState.mk [[("lastChangeDate", "B")]] "B" 2 0).cursor) ∧
    ((1 : Nat) ≤ 1 ∧ (1 = 1 → "A" = "A")) :=
  ⟨(C1_cursor_never_regresses [] (.ok ⟨200, true, false, some .nonArray⟩)
      (FetchState.mk [] "A" 1 0)).1 (FetchState.mk [] "A" 1 1)
      [Event.sleep baseSleep] rfl,
   (C1_cursor_never_regresses [] (validPageResp [[("lastChangeDate", "B")]])
      (FetchState.mk [] "A" 1 0)).2.1
      (FetchState.mk [[("lastChangeDate", "B")]] "B" 2 0)
      [Event.sleep baseSleep] (by decide),
   (C1_cursor_never_regresses [validPageResp []] RawResponse.netErr
      (FetchState.mk [] "A" 1 0)).2.2 "A" 1 1 (by decide)⟩

/-- C5: classification checks the rules in source order: a transient status
(429/500/502/503/504) yields `transientHttp` whatever the body; 401 yields
`fatalAuth` whatever the body; any other non-200 status yields
`unexpectedStatus` whatever the body; only for status 200 is the body
examined — wrong content type or blank body, a JSON decode failure, and a
non-array JSON value each yield `malformed` — and exactly a parsed array
yields `validPage`. -/
theorem C5_classification_order (resp : HttpResponse) :
    (resp.status ∈ transientStatuses → classify resp = .transientHttp) ∧
    (resp.status = 401 → classify resp = .fatalAuth) ∧
    (resp.status ∉ transientStatuses → resp.status ≠ 401 →
      resp.status ≠ 200 → classify resp = .unexpectedStatus) ∧
    (resp.status = 200 → (resp.ctypeJson = false ∨ resp.bodyBlank = true) →
      classify resp = .malformed) ∧
    (resp.status = 200 → resp.ctypeJson = true → resp.bodyBlank = false →
      resp.parsed = none → classify resp = .malformed) ∧
    (resp.status = 200 → resp.ctypeJson = true → resp.bodyBlank = false →
      resp.parsed = some .nonArray → classify resp = .malformed) ∧
    (∀ chunk, resp.status = 200 → resp.ctypeJson = true → resp.bodyBlank = false →
      resp.parsed = some (.arr chunk) → classify resp = .validPage chunk) ∧
    (∀ chunk, classify resp = .validPage chunk →
      resp.status = 200 ∧ resp.ctypeJson = true ∧ resp.bodyBlank = false ∧
        resp.parsed = some (.arr chunk)) := by
  obtain ⟨st, ct, bb, pd⟩ := resp
  refine ⟨?_, ?_, ?_, ?_, ?_, ?_, ?_, ?_⟩
  · intro h
    simp [classify, h]
  · intro h
    subst h
    simp [classify, transientStatuses]
  · intro h1 h2 h3
    simp [classify, h1, h2, h3]
  · intro h1 h2
    subst h1
    rcases h2 with h2 | h2 <;> subst h2 <;>
      simp [classify, transientStatuses]
  · intro h1 h2 h3 h4
    subst h1; subst h2; subst h3; subst h4
    simp [classify, transientStatuses]
  · intro h1 h2 h3 h4
    subst h1; subst h2; subst h3; subst h4
    simp [classify, transientStatuses]
  · intro chunk h1 h2 h3 h4
    subst h1; subst h2; subst h3; subst h4
    simp [classify, transientStatuses]
  · intro chunk hcl
    unfold classify at hcl
    simp only at hcl
    split at hcl
    · exact absurd hcl (by simp)
    · split at hcl
      · exact absurd hcl (by simp)
      · split at hcl
        · exact absurd hcl (by simp)
        · split at hcl
          · exact absurd hcl (by simp)
          · next hcon h401 h200 hbody =>
            split at hcl
            · exact absurd hcl (by simp)
            · exact absurd hcl (by simp)
            · next chunk2 hpd =>
              simp only [Classified.validPage.injEq] at hcl
              subst hcl
              refine ⟨by simpa using h200, ?_, ?_, rfl⟩
              · simp only [Bool.not_eq_true, Bool.or_eq_false_iff] at hbody
                simpa using hbody.1
              · simp only [Bool.not_eq_true, Bool.or_eq_false_iff] at hbody
                exact hbody.2

/-- C2 is false as stated: one valid non-empty page whose last record lacks
`lastChangeDate` makes the loop stop — the second response is never
requested — although no page returned zero records, no 401 was seen, and no
retry cap was exceeded (only one attempt was ever made). -/
theorem C2_counterexample :
    (fetch_orders "W" [validPageResp [[("foo", "bar")]], RawResponse.netErr]).consumed
      = 1 ∧
    ([validPageResp [[("foo", "bar")]], RawResponse.netErr] : List RawResponse).length
      = 2 ∧
    (fetch_orders "W" [validPageResp [[("foo", "bar")]], RawResponse.netErr]).reason
      = .missingCursor ∧
    (fetch_orders "W" [validPageResp [[("foo", "bar")]], RawResponse.netErr]).reason
      ∉ [StopReason.emptyPage, .fatalAuth, .netRetriesExhausted,
         .httpRetriesExhausted, .unexpectedRetriesExhausted,
         .decodeRetriesExhausted] :=
  ⟨rfl, rfl, rfl, by decide⟩

/-- C2 (amended): over any finite response sequence the loop consumes at
most one response per classification step, so at most the length of the
sequence; it stops before exhausting the sequence only for an empty page, a
401, an exceeded retry cap, or — the case the claim omits — a missing
`lastChangeDate` cursor in a non-empty page; and the per-page attempt
counter never exceeds the retry ceiling of 3, so the step count is bounded
by pages times retries. -/
theorem C2_termination_bounds (d : String) (rs : List RawResponse) :
    (fetch_orders d rs).consumed ≤ rs.length ∧
    requestCount (fetch_orders d rs).events = (fetch_orders d rs).consumed ∧
    ((fetch_orders d rs).consumed < rs.length →
      (fetch_orders d rs).reason ∈
        [StopReason.netRetriesExhausted, .httpRetriesExhausted,
         .unexpectedRetriesExhausted, .decodeRetriesExhausted, .fatalAuth,
         .emptyPage, .missingCursor]) ∧
    (∀ dfrom p a, Event.request dfrom p a ∈ (fetch_orders d rs).events → a ≤ 3) := by
  simp only [fetch_orders]
  refine ⟨fetchGo_consumed_le rs _, fetchGo_requestCount rs _, ?_, ?_⟩
  · intro hlt
    have hne := fetchGo_early_stop rs ⟨[], d, 1, 0⟩ hlt
    rcases hr : (fetchGo rs ⟨[], d, 1, 0⟩).reason <;> rw [hr] at hne <;>
      simp at hne ⊢
  · intro dfrom p a he
    exact fetchGo_attempt_le rs ⟨[], d, 1, 0⟩ (Nat.zero_le 2) he

theorem C2_termination_bounds_witness :
    (fetch_orders "W" [RawResponse.ok ⟨401, true, false, none⟩, RawResponse.netErr]).reason
      ∈ [StopReason.netRetriesExhausted, .httpRetriesExhausted,
         .unexpectedRetriesExhausted, .decodeRetriesExhausted, .fatalAuth,
         .emptyPage, .missingCursor] ∧
    (1 : Nat) ≤ 3 :=
  ⟨(C2_termination_bounds "W"
      [RawResponse.ok ⟨401, true, false, none⟩, RawResponse.netErr]).2.2.1 (by decide),
   (C2_termination_bounds "W"
      [RawResponse.ok ⟨401, true, false, none⟩, RawResponse.netErr]).2.2.2
     "W" 1 1 (by decide)⟩

/-- The step returned `all_rows` with this stop reason. -/
def stopsWith (o : StepOut) (reason : StopReason) : Prop :=
  ∃ rows evs, o = .stop rows reason evs

/-- C3 is false as stated: one transient 503 followed by malformed
responses leaves the page only two malformed attempts, not three — the
shared `attempt` counter reaches the decode cap at the third overall
attempt, so the fourth response (the claimed third malformed retry) is
never requested. -/
theorem C3_counterexample :
    (fetch_orders "D"
        [RawResponse.ok ⟨503, true, false, none⟩,
         RawResponse.ok ⟨200, true, false, some .nonArray⟩,
         RawResponse.ok ⟨200, true, false, some .nonArray⟩,
         RawResponse.ok ⟨200, true, false, some .nonArray⟩]).consumed = 3 ∧
    (fetch_orders "D"
        [RawResponse.ok ⟨503, true, false, none⟩,
         RawResponse.ok ⟨200, true, false, some .nonArray⟩,
         RawResponse.ok ⟨200, true, false, some .nonArray⟩,
         RawResponse.ok ⟨200, true, false, some .nonArray⟩]).reason
      = .decodeRetriesExhausted :=
  ⟨rfl, rfl⟩

/-- C3 (amended): the two retry ceilings (3 for HTTP/network transient
errors, 3 for malformed/decode failures) are compared against one shared
per-page `attempt` counter, not two separate ones: every failure class
increments the same counter, a malformed response ends the fetch exactly
when that shared counter reaches `max_decode_retries`, a network error /
transient HTTP / unexpected status ends it exactly when the same counter
reaches `max_http_retries`, and the counter resets to zero when a new page
begins. -/
theorem C3_shared_retry_counter (r : RawResponse) (resp : HttpResponse)
    (s : FetchState) :
    (∀ s1 evs, fetchStep r s = .retry s1 evs → s1.attempt = s.attempt + 1) ∧
    (∀ s1 evs, fetchStep r s = .nextPage s1 evs → s1.attempt = 0) ∧
    (classify resp = .malformed →
      (stopsWith (fetchStep (.ok resp) s) .decodeRetriesExhausted ↔
        maxDecodeRetries ≤ s.attempt + 1)) ∧
    (classify resp = .transientHttp →
      (stopsWith (fetchStep (.ok resp) s) .httpRetriesExhausted ↔
        maxHttpRetries ≤ s.attempt + 1)) ∧
    (classify resp = .unexpectedStatus →
      (stopsWith (fetchStep (.ok resp) s) .unexpectedRetriesExhausted ↔
        maxHttpRetries ≤ s.attempt + 1)) ∧
    (stopsWith (fetchStep .netErr s) .netRetriesExhausted ↔
      maxHttpRetries ≤ s.attempt + 1) := by
  refine ⟨?_, ?_, ?_, ?_, ?_, ?_⟩
  · intro s1 evs h
    exact (fetchStep_retry_eq h).2.2.2.1
  · intro s1 evs h
    obtain ⟨_, _, _, _, _, _, _, _, hatt, _⟩ := fetchStep_nextPage_eq h
    exact hatt
  · intro hc
    simp only [fetchStep, hc]
    by_cases hle : maxDecodeRetries ≤ s.attempt + 1 <;>
      simp [stopsWith, hle]
  · intro hc
    simp only [fetchStep, hc]
    by_cases hle : maxHttpRetries ≤ s.attempt + 1 <;>
      simp [stopsWith, hle]
  · intro hc
    simp only [fetchStep, hc]
    by_cases hle : maxHttpRetries ≤ s.attempt + 1 <;>
      simp [stopsWith, hle]
  · simp only [fetchStep]
    by_cases hle : maxHttpRetries ≤ s.attempt + 1 <;>
      simp [stopsWith, hle]

theorem C3_witness :
    (FetchState.mk [] "D" 1 2).attempt = (FetchState.mk [] "D" 1 1).attempt + 1 ∧
    (stopsWith
        (fetchStep (.ok ⟨200, true, false, some .nonArray⟩) (FetchState.mk [] "D" 1 2))
        .decodeRetriesExhausted ↔
      maxDecodeRetries ≤ (FetchState.mk [] "D" 1 2).attempt + 1) ∧
    (stopsWith (fetchStep .netErr (FetchState.mk [] "D" 1 0))
        .netRetriesExhausted ↔
      maxHttpRetries ≤ (FetchState.mk [] "D" 1 0).attempt + 1) :=
  ⟨(C3_shared_retry_counter (.ok ⟨200, true, false, some .nonArray⟩)
      ⟨200, true, false, some .nonArray⟩ (FetchState.mk [] "D" 1 1)).1
      (FetchState.mk [] "D" 1 2) [Event.sleep baseSleep] rfl,
   (C3_shared_retry_counter (.ok ⟨200, true, false, some .nonArray⟩)
      ⟨200, true, false, some .nonArray⟩ (FetchState.mk [] "D" 1 2)).2.2.1 rfl,
   (C3_shared_retry_counter .netErr ⟨200, true, false, some .nonArray⟩
      (FetchState.mk [] "D" 1 0)).2.2.2.2.2⟩

/-- C4 is false as stated: on the second network-level failure of a page the
code sleeps the flat `base_sleep` of 60, not the claimed
`base_pause * min(attempt, 4) = 120`. -/
theorem C4_counterexample :
    (fetch_orders "W" [RawResponse.netErr, RawResponse.netErr]).events
      = [Event.request "W" 1 1, Event.sleep 60,
         Event.request "W" 1 2, Event.sleep 60] ∧
    baseSleep * min 2 4 = 120 ∧ (60 : Nat) ≠ 120 :=
  ⟨rfl, rfl, by decide⟩

/-- C4 (amended): the wait before a retry is `base_sleep * min(attempt, 4)`
for a transient HTTP status (429/500/502/503/504) with `attempt` the
1-indexed per-page retry count, and a flat `base_sleep` for a malformed
response; but a network-level exception and an unexpected status also wait
the flat `base_sleep`, not the scaled transient backoff (they share only
the transient retry cap); a 401 sleeps nothing. -/
theorem C4_backoff_durations (resp : HttpResponse) (s : FetchState) :
    stepEvents (fetchStep .netErr s) = [.sleep baseSleep] ∧
    (classify resp = .transientHttp →
      stepEvents (fetchStep (.ok resp) s)
        = [.sleep (baseSleep * min (s.attempt + 1) 4)]) ∧
    (classify resp = .malformed →
      stepEvents (fetchStep (.ok resp) s) = [.sleep baseSleep]) ∧
    (classify resp = .unexpectedStatus →
      stepEvents (fetchStep (.ok resp) s) = [.sleep baseSleep]) ∧
    (classify resp = .fatalAuth → stepEvents (fetchStep (.ok resp) s) = []) := by
  refine ⟨?_, ?_, ?_, ?_, ?_⟩
  · simp only [fetchStep]
    split <;> rfl
  · intro hc
    simp only [fetchStep, hc]
    split <;> rfl
  · intro hc
    simp only [fetchStep, hc]
    split <;> rfl
  · intro hc
    simp only [fetchStep, hc]
    split <;> rfl
  · intro hc
    simp only [fetchStep, hc]
    rfl

theorem C4_witness :
    stepEvents (fetchStep (.ok ⟨503, true, false, none⟩) (FetchState.mk [] "D" 1 1))
      = [Event.sleep (baseSleep * min ((FetchState.mk [] "D" 1 1).attempt + 1) 4)] ∧
    stepEvents (fetchStep (.ok ⟨200, false, false, none⟩) (FetchState.mk [] "D" 1 0))
      = [Event.sleep baseSleep] ∧
    stepEvents (fetchStep (.ok ⟨404, true, false, none⟩) (FetchState.mk [] "D" 1 0))
      = [Event.sleep baseSleep] ∧
    stepEvents (fetchStep (.ok ⟨401, true, false, none⟩) (FetchState.mk [] "D" 1 0))
      = [] :=
  ⟨(C4_backoff_durations ⟨503, true, false, none⟩ (FetchState.mk [] "D" 1 1)).2.1 rfl,
   (C4_backoff_durations ⟨200, false, false, none⟩ (FetchState.mk [] "D" 1 0)).2.2.1 rfl,
   (C4_backoff_durations ⟨404, true, false, none⟩ (FetchState.mk [] "D" 1 0)).2.2.2.1 rfl,
   (C4_backoff_durations ⟨401, true, false, none⟩ (FetchState.mk [] "D" 1 0)).2.2.2.2 rfl⟩

theorem C5_witness :
    classify ⟨503, false, true, none⟩ = .transientHttp ∧
    classify ⟨401, true, false, some (.arr [[("a", "b")]])⟩ = .fatalAuth ∧
    classify ⟨404, true, false, some (.arr [])⟩ = .unexpectedStatus ∧
    classify ⟨200, false, false, some (.arr [])⟩ = .malformed ∧
    classify ⟨200, true, false, none⟩ = .malformed ∧
    classify ⟨200, true, false, some .nonArray⟩ = .malformed ∧
    classify ⟨200, true, false, some (.arr [[("a", "b")]])⟩
      = .validPage [[("a", "b")]] :=
  ⟨(C5_classification_order ⟨503, false, true, none⟩).1 (by decide),
   (C5_classification_order ⟨401, true, false, some (.arr [[("a", "b")]])⟩).2.1 rfl,
   (C5_classification_order ⟨404, true, false, some (.arr [])⟩).2.2.1 (by decide)
     (by decide) (by decide),
   (C5_classification_order ⟨200, false, false, some (.arr [])⟩).2.2.2.1 rfl
     (Or.inl rfl),
   (C5_classification_order ⟨200, true, false, none⟩).2.2.2.2.1 rfl rfl rfl rfl,
   (C5_classification_order ⟨200, true, false, some .nonArray⟩).2.2.2.2.2.1
     rfl rfl rfl rfl,
   (C5_classification_order ⟨200, true, false, some (.arr [[("a", "b")]])⟩).2.2.2.2.2.2.1
     [[("a", "b")]] rfl rfl rfl rfl⟩

/-- C6: for every finite sequence of valid non-empty pages (each carrying a
`lastChangeDate` in its last record) ending in an empty page, the fetch
returns exactly the concatenation of the pages in arrival order — nothing
dropped, reordered or deduplicated — makes one request per page plus the
final empty-page request, and issues each request after the first at the
cursor taken from the previous page's last record. -/
theorem C6_round_trip (d : String) (pages : List (List Record))
    (h : ∀ p ∈ pages, (lastCursor p).isSome) :
    (fetch_orders d (pages.map validPageResp ++ [validPageResp []])).rows
        = pages.flatten ∧
    (fetch_orders d (pages.map validPageResp ++ [validPageResp []])).reason
        = .emptyPage ∧
    (fetch_orders d (pages.map validPageResp ++ [validPageResp []])).consumed
        = pages.length + 1 ∧
    requestCount (fetch_orders d (pages.map validPageResp ++ [validPageResp []])).events
        = pages.length + 1 ∧
    requestCursors (fetch_orders d (pages.map validPageResp ++ [validPageResp []])).events
        = d :: pages.map (fun p => (lastCursor p).getD "") := by
  obtain ⟨h1, h2, h3, h4⟩ := fetchGo_valid_pages pages ⟨[], d, 1, 0⟩ h
  simp only [fetch_orders]
  refine ⟨by simpa using h1, h2, h3, ?_, h4⟩
  rw [requestCount, h4]
  simp

theorem C6_witness :
    (fetch_orders "2023-12-29T00:00:00"
        (([[[("lastChangeDate", "2024-01-01")], [("lastChangeDate", "2024-01-02")]]] :
            List (List Record)).map validPageResp ++ [validPageResp []])).rows
      = [[("lastChangeDate", "2024-01-01")], [("lastChangeDate", "2024-01-02")]] ∧
    requestCount (fetch_orders "2023-12-29T00:00:00"
        (([[[("lastChangeDate", "2024-01-01")], [("lastChangeDate", "2024-01-02")]]] :
            List (List Record)).map validPageResp ++ [validPageResp []])).events = 2 ∧
    requestCursors (fetch_orders "2023-12-29T00:00:00"
        (([[[("lastChangeDate", "2024-01-01")], [("lastChangeDate", "2024-01-02")]]] :
            List (List Record)).map validPageResp ++ [validPageResp []])).events
      = ["2023-12-29T00:00:00", "2024-01-02"] :=
  ⟨by
    simpa using (C6_round_trip "2023-12-29T00:00:00"
      [[[("lastChangeDate", "2024-01-01")], [("lastChangeDate", "2024-01-02")]]]
      (by decide)).1,
   (C6_round_trip "2023-12-29T00:00:00"
      [[[("lastChangeDate", "2024-01-01")], [("lastChangeDate", "2024-01-02")]]]
      (by decide)).2.2.2.1,
   by
    simpa using (C6_round_trip "2023-12-29T00:00:00"
      [[[("lastChangeDate", "2024-01-01")], [("lastChangeDate", "2024-01-02")]]]
      (by decide)).2.2.2.2⟩

/-- C7: if the first response for a cabinet is HTTP 401, the fetch stops
immediately: it returns no records, makes exactly that one request, sleeps
through no backoff at all, and the runner still hands the empty result to
the sink for that cabinet instead of skipping it. -/
theorem C7_first_401 (d : String) (resp : HttpResponse) (rest : List RawResponse)
    (fail : FailOracle) (respFor : String → List RawResponse) (book : Book)
    (c : Credential)
    (h401 : resp.status = 401)
    (hresp : respFor c.token = .ok resp :: rest) :
    (fetch_orders d (.ok resp :: rest)).rows = [] ∧
    (fetch_orders d (.ok resp :: rest)).events = [.request d 1 1] ∧
    hasSleep (fetch_orders d (.ok resp :: rest)).events = false ∧
    (fetch_orders d (.ok resp :: rest)).reason = .fatalAuth ∧
    (processCred fail respFor d book c).2 = (c.cabinet, []) := by
  have hcl : classify resp = .fatalAuth := by
    simp [classify, h401, transientStatuses]
  have hstep : fetchStep (.ok resp) (⟨[], d, 1, 0⟩ : FetchState)
      = .stop [] .fatalAuth [] := by
    simp only [fetchStep, hcl]
  have hgo : fetch_orders d (.ok resp :: rest)
      = ⟨[.request d 1 1], [], .fatalAuth, 1⟩ := by
    simp [fetch_orders, fetchGo, hstep]
  refine ⟨by simp [hgo], by simp [hgo], by simp [hgo, hasSleep], by simp [hgo], ?_⟩
  simp [processCred, hresp, hgo]

theorem C7_first_401_witness :
    (fetch_orders "W" [RawResponse.ok ⟨401, false, true, none⟩]).rows = [] ∧
    (fetch_orders "W" [RawResponse.ok ⟨401, false, true, none⟩]).events
      = [Event.request "W" 1 1] ∧
    hasSleep (fetch_orders "W" [RawResponse.ok ⟨401, false, true, none⟩]).events
      = false ∧
    (fetch_orders "W" [RawResponse.ok ⟨401, false, true, none⟩]).reason
      = .fatalAuth ∧
    (processCred noFail (fun _ => [RawResponse.ok ⟨401, false, true, none⟩]) "W"
        [] ⟨"tok", "Cab"⟩).2 = ("Cab", []) :=
  C7_first_401 "W" ⟨401, false, true, none⟩ [] noFail
    (fun _ => [RawResponse.ok ⟨401, false, true, none⟩]) [] ⟨"tok", "Cab"⟩ rfl rfl

/-- C8: invoked with an empty record set the sink performs no clear and no
write — only the get-or-create of the worksheet — so every existing table
keeps its contents; invoked with a non-empty record set it replaces the
cabinet's table with a header row equal to the first record's field names
in API order followed by one row per record, missing fields rendered as
the empty string. -/
theorem C8_sink_replace (book : Book) (cab : String) :
    (write_orders_to_sheet noFail book cab [] = ensureTable book cab) ∧
    (∀ name t, bookGet book name = some t →
      bookGet (write_orders_to_sheet noFail book cab []) name = some t) ∧
    (∀ (o : Record) (rest : List Record),
      bookGet (write_orders_to_sheet noFail book cab (o :: rest)) cab
        = some (recKeys o :: (o :: rest).map (rowFor (recKeys o)))) := by
  refine ⟨write_empty_eq_ensure book cab, ?_, ?_⟩
  · intro name t h
    rw [write_empty_eq_ensure book cab]
    exact bookGet_ensureTable_of_get cab h
  · intro o rest
    rw [write_nonempty_table book cab o rest]
    rfl

theorem C8_sink_replace_witness :
    write_orders_to_sheet noFail [("A", [["old"]])] "B" []
      = ensureTable [("A", [["old"]])] "B" ∧
    bookGet (write_orders_to_sheet noFail [("A", [["old"]])] "B" []) "A"
      = some [["old"]] ∧
    bookGet (write_orders_to_sheet noFail [("A", [["old"]])] "A"
        [[("x", "1")], [("y", "2")]]) "A"
      = some [["x"], ["1"], [""]] :=
  ⟨(C8_sink_replace [("A", [["old"]])] "B").1,
   (C8_sink_replace [("A", [["old"]])] "B").2.1 "A" [["old"]] rfl,
   (C8_sink_replace [("A", [["old"]])] "A").2.2 [("x", "1")] [[("y", "2")]]⟩

/-- C9: for every credential list, every sink failure oracle and every
response map, the runner performs the fetch and hands its result to the
sink for every credential in order — a sink error for one cabinet (caught
inside `write_orders_to_sheet`) never aborts the processing of the
remaining credentials. -/
theorem C9_per_cabinet_isolation (fail : FailOracle)
    (respFor : String → List RawResponse) (d : String)
    (creds : List Credential) (book : Book) :
    (mainRun fail respFor d creds book).2
      = creds.map (fun c => (c.cabinet, (fetch_orders d (respFor c.token)).rows)) := by
  induction creds generalizing book with
  | nil => simp [mainRun]
  | cons c rest ih => simp [mainRun, processCred, ih]

/-- C10: each data row written by the sink contains exactly the fields named
in the first record's key set, in that order: the table is the header row
plus one row per record computed only from the header fields — every data
row has the header's length, and a field present in a later record but
absent from the first record's keys contributes nothing to the written
row. -/
theorem C10_rows_from_first_keys (book : Book) (cab : String) (o : Record)
    (rest : List Record) :
    bookGet (write_orders_to_sheet noFail book cab (o :: rest)) cab
      = some (recKeys o :: (o :: rest).map (rowFor (recKeys o))) ∧
    (∀ r : Record, (rowFor (recKeys o) r).length = (recKeys o).length) ∧
    (∀ (r : Record) (k v : String), k ∉ recKeys o →
      rowFor (recKeys o) (r ++ [(k, v)]) = rowFor (recKeys o) r) := by
  refine ⟨write_nonempty_table book cab o rest, ?_, ?_⟩
  · intro r
    simp [rowFor]
  · intro r k v hk
    unfold rowFor
    refine List.map_congr_left ?_
    intro hname hmem
    rw [dictGet_append_single_of_ne r v (fun heq => hk (by rw [heq]; exact hmem))]

theorem C10_rows_from_first_keys_witness :
    bookGet (write_orders_to_sheet noFail [] "A" [[("a", "1")], [("a", "2"), ("z", "9")]]) "A"
      = some [["a"], ["1"], ["2"]] ∧
    (rowFor (recKeys [("a", "1")]) [("b", "7")]).length
      = (recKeys [("a", "1")]).length ∧
    rowFor (recKeys [("a", "1")]) ([("a", "2")] ++ [("z", "9")])
      = rowFor (recKeys [("a", "1")]) [("a", "2")] :=
  ⟨(C10_rows_from_first_keys [] "A" [("a", "1")] [[("a", "2"), ("z", "9")]]).1,
   (C10_rows_from_first_keys [] "A" [("a", "1")] [[("a", "2"), ("z", "9")]]).2.1
     [("b", "7")],
   (C10_rows_from_first_keys [] "A" [("a", "1")] [[("a", "2"), ("z", "9")]]).2.2
     [("a", "2")] "z" "9" (by decide)⟩

end Orders
